import Mathlib

/-!
Shallow embedding of `src/main.cpp` (a small in-memory tabular store with one
hardcoded analytical query), together with proofs about the claims of its
specification.

Modelling conventions:
* C++ `int` values are modelled as `Int`.  The inputs relevant to the claims
  are tiny, so 32-bit wraparound is never exercised and is not modelled.
* C++ `float` values are modelled as `ℚ`.  Every numeric literal appearing in
  the claims (`299.0`, `10.0`, and the concrete test inputs) is exactly
  representable as a 32-bit float, so the comparisons `> 299.0` and `< 10.0`
  performed by the query are exact and the rational model is faithful there.
* `std::map` is modelled as an association list kept sorted by key, with the
  keep-existing-on-duplicate semantics of `std::map::insert` made explicit.
  (Lexicographic `String` order stands in for C++ byte-wise string order;
  they agree on the ASCII data at issue.)
* The C++ `assert` calls abort the process; each one is modelled as a fatal
  `ParseError`.  The failure result carries the engine state as it was at the
  moment of the abort, so that "nothing was stored" claims can be stated.
-/

namespace SparseQuery

/-- Field type tags, from `enum FieldType` in the source. -/
inductive FieldType
  | tInt
  | tFloat
  | tString
deriving DecidableEq, Repr

/-- `operator<<(std::ostream&, const FieldType&)` from the source. -/
def FieldType.render : FieldType → String
  | FieldType.tString => "STRING"
  | FieldType.tInt => "INT"
  | FieldType.tFloat => "FLOAT"

/-- The closed `Field` variant (`IntField`, `FloatField`, `StringField`).
Equality is variant-tag-aware, exactly as the virtual `equals` methods are. -/
inductive Field
  | intF (val : Int)
  | floatF (val : ℚ)
  | stringF (val : String)
deriving DecidableEq, Repr

/-- Decimal rendering of the fractional digits of a float, helper for
`renderFloat` below. -/
def fracDigitsString (n : Nat) (width : Nat) : String :=
  let s := toString n
  let padded := String.mk (List.replicate (width - s.length) '0') ++ s
  String.mk (padded.data.reverse.dropWhile (· = '0')).reverse

/-- Models the default C++ `std::ostream` rendering of a `float`
(`out << val`): integral values print with no decimal point, other values
with a short decimal expansion.  The 6-significant-digit rounding and the
scientific-notation regime of the real formatter are not modelled; no theorem
in this development depends on the output of this function (the claims that
involve serialization are settled on tables whose re-parse fails before any
row is examined, or on float-free tables). -/
def renderFloat (q : ℚ) : String :=
  if q.den = 1 then toString q.num
  else
    let sgn := if q < 0 then "-" else ""
    let a : ℚ := |q|
    let ip : Int := a.floor
    let frac : ℚ := a - (ip : ℚ)
    let fd : Int := (frac * 1000000).floor
    sgn ++ toString ip ++ "." ++ fracDigitsString fd.toNat 6

/-- The virtual `print` method of the `Field` hierarchy. -/
def Field.render : Field → String
  | Field.intF v => toString v
  | Field.floatF v => renderFloat v
  | Field.stringF v => v

/-- `class DenseTable`: name, parallel column name/type lists, and rows in
insertion order. -/
structure DenseTable where
  name : String
  columnNames : List String
  columnTypes : List FieldType
  records : List (List Field)
deriving DecidableEq, Repr

/-- `enum TableName` from the source: the table kinds recognized by the
index-building switch. -/
inductive TableName
  | TRADABLE
  | PRICE_OVER_TIME
  | VOLUME_OVER_TIME
  | TRADES
deriving DecidableEq, Repr

/-- Each C++ `assert` / fatal branch of the loader, as a distinct error.
`intParseError` / `floatParseError` model the exceptions thrown by
`std::stoi` / `std::stof` on non-numeric text, and `castFail` models the
undefined behaviour of a `static_cast` to the wrong `Field` variant (or an
out-of-range `operator[]`) in the index-building switch. -/
inductive ParseError
  | emptyLine
  | truncatedHeader
  | emptyHeader
  | headerArityMismatch
  | unknownColumnType
  | markerNoName
  | noActiveTable
  | arityMismatch
  | intParseError
  | floatParseError
  | castFail
deriving DecidableEq, Repr

/-- The member state of `ReferenceQueryEngine`: the stored tables, the raw
headers, and the four indexed-store maps. -/
structure EngineState where
  tables : List DenseTable
  table_headers : List (String × List String × List FieldType)
  name_to_class : List (String × String)
  name_to_date_price : List (String × List (Int × ℚ))
  name_to_date_volume : List (String × List (Int × ℚ))
  name_to_trades : List (String × List (Int × Int × Int))
deriving DecidableEq, Repr

/-- A freshly constructed `ReferenceQueryEngine`. -/
def initState : EngineState := ⟨[], [], [], [], [], []⟩

/-- Result of loading: either the final engine state, or a fatal error
together with the engine state at the moment the C++ process would abort. -/
inductive ParseResult
  | ok (st : EngineState)
  | err (e : ParseError) (st : EngineState)
deriving DecidableEq, Repr

/-- Lexicographic comparison of character lists, the behaviour of
`std::string`'s `operator<` (byte-wise there, code-point-wise here; the two
agree on the ASCII data at issue). -/
def strLtChars : List Char → List Char → Bool
  | [], [] => false
  | [], _ :: _ => true
  | _ :: _, [] => false
  | a :: as, b :: bs => if a < b then true else if b < a then false else strLtChars as bs

/-- `std::less<std::string>`, the key order of the string-keyed maps. -/
def strLt (a b : String) : Bool := strLtChars a.data b.data

/-- `std::less<int>`, the key order of the day-keyed series maps. -/
def intLt (a b : Int) : Bool := decide (a < b)

/-- `std::map::insert`: insert sorted by the map's key order `lt`, but KEEP
the existing entry when the key is already present (this is the documented
C++ semantics of `insert`, and is the reason duplicate (instrument, day)
price rows keep the first price). -/
def mapInsert {α β : Type} [DecidableEq α] (lt : α → α → Bool) (k : α) (v : β) :
    List (α × β) → List (α × β)
  | [] => [(k, v)]
  | (k', v') :: rest =>
    if lt k k' then (k, v) :: (k', v') :: rest
    else if k = k' then (k', v') :: rest
    else (k', v') :: mapInsert lt k v rest

/-- `std::map::find` (read-only lookup). -/
def mapFind {α β : Type} [DecidableEq α] (k : α) : List (α × β) → Option β
  | [] => none
  | (k', v') :: rest => if k = k' then some v' else mapFind k rest

/-- In-place modification of the mapped value of an existing key, modelling a
mutation through the iterator returned by `find` (`search->second`). -/
def mapAdjust {α β : Type} [DecidableEq α] (k : α) (f : β → β) : List (α × β) → List (α × β)
  | [] => []
  | (k', v') :: rest => if k = k' then (k', f v') :: rest else (k', v') :: mapAdjust k f rest

/-- Value of a digit string, most significant digit first. -/
def digitsVal (cs : List Char) : Nat :=
  cs.foldl (fun acc c => acc * 10 + (c.toNat - 48)) 0

/-- Models `std::stoi`: skip whitespace, optional sign, then a nonempty run
of digits (trailing non-digit text is ignored, as `stoi` ignores it); `none`
models the `std::invalid_argument` exception.  Out-of-`int`-range values are
not modelled (no claim involves them). -/
def parseIntCpp (s : String) : Option Int :=
  let cs := s.data.dropWhile (fun c => c.isWhitespace)
  let neg : Bool := match cs with | '-' :: _ => true | _ => false
  let cs1 := match cs with | '-' :: r => r | '+' :: r => r | _ => cs
  let ds := cs1.takeWhile (fun c => c.isDigit)
  if ds.isEmpty then none
  else some (if neg then -(digitsVal ds : Int) else (digitsVal ds : Int))

/-- Models `std::stof` on decimal inputs: skip whitespace, optional sign,
digits with an optional fraction, optional exponent.  The value
`±(ipdigits.fpdigits) × 10^(±exp)` is assembled as one exact rational
`Rat.divInt` of integer mantissa arithmetic.  Rounding to the nearest 32-bit
float is not modelled (all float values appearing in the claims are exactly
representable, so the model is exact where it is used); hexadecimal float
syntax is not modelled. -/
def parseFloatCpp (s : String) : Option ℚ :=
  let cs0 := s.data.dropWhile (fun c => c.isWhitespace)
  let neg : Bool := match cs0 with | '-' :: _ => true | _ => false
  let cs1 := match cs0 with | '-' :: r => r | '+' :: r => r | _ => cs0
  let ip := cs1.takeWhile (fun c => c.isDigit)
  let cs2 := cs1.dropWhile (fun c => c.isDigit)
  let fp := match cs2 with | '.' :: r => r.takeWhile (fun c => c.isDigit) | _ => []
  let cs3 := match cs2 with | '.' :: r => r.dropWhile (fun c => c.isDigit) | _ => cs2
  if ip.isEmpty && fp.isEmpty then none
  else
    let mant : Nat := digitsVal ip * 10 ^ fp.length + digitsVal fp
    let expPart : Option (Bool × List Char) :=
      match cs3 with
      | 'e' :: r =>
        (match r with
         | '-' :: ds => some (true, ds.takeWhile (fun c => c.isDigit))
         | '+' :: ds => some (false, ds.takeWhile (fun c => c.isDigit))
         | ds => some (false, ds.takeWhile (fun c => c.isDigit)))
      | 'E' :: r =>
        (match r with
         | '-' :: ds => some (true, ds.takeWhile (fun c => c.isDigit))
         | '+' :: ds => some (false, ds.takeWhile (fun c => c.isDigit))
         | ds => some (false, ds.takeWhile (fun c => c.isDigit)))
      | _ => none
    let eup : Nat := match expPart with
      | some (false, ds) => if ds.isEmpty then 0 else digitsVal ds
      | _ => 0
    let edown : Nat := match expPart with
      | some (true, ds) => if ds.isEmpty then 0 else digitsVal ds
      | _ => 0
    let num : Int := (if neg then -(mant : Int) else (mant : Int)) * (10 ^ eup : Nat)
    some (Rat.divInt num ((10 : Nat) ^ (fp.length + edown)))

/-- The column-type-header loop of `loadTablesFromCSV`: maps each token to a
`FieldType`, failing (at the first bad token, like the C++ loop) when a token
is not one of the case-sensitive strings `STRING` / `INT` / `FLOAT`. -/
def parseTypes : List String → Option (List FieldType)
  | [] => some []
  | c :: rest =>
    if c = "STRING" then (parseTypes rest).map (fun ts => FieldType.tString :: ts)
    else if c = "INT" then (parseTypes rest).map (fun ts => FieldType.tInt :: ts)
    else if c = "FLOAT" then (parseTypes rest).map (fun ts => FieldType.tFloat :: ts)
    else none

/-- One iteration of the record-building loop: parse one text field according
to its column's declared type. -/
def parseField (tp : FieldType) (s : String) : Except ParseError Field :=
  match tp with
  | FieldType.tString => Except.ok (Field.stringF s)
  | FieldType.tInt =>
    match parseIntCpp s with
    | some v => Except.ok (Field.intF v)
    | none => Except.error ParseError.intParseError
  | FieldType.tFloat =>
    match parseFloatCpp s with
    | some v => Except.ok (Field.floatF v)
    | none => Except.error ParseError.floatParseError

/-- The record-building loop of `loadTablesFromCSV` (the caller has already
checked that the two lists have equal length). -/
def parseRecord : List FieldType → List String → Except ParseError (List Field)
  | [], _ => Except.ok []
  | _ :: _, [] => Except.ok []
  | tp :: tps, s :: ss =>
    match parseField tp s with
    | Except.error e => Except.error e
    | Except.ok f =>
      match parseRecord tps ss with
      | Except.error e => Except.error e
      | Except.ok r => Except.ok (f :: r)

/-- `static_cast<StringField*>(record[i].get())->val`.  An out-of-range index
or a wrong dynamic variant is undefined behaviour in C++; it is modelled as
the fatal `castFail`. -/
def fieldString (record : List Field) (i : Nat) : Except ParseError String :=
  match record[i]? with
  | some (Field.stringF v) => Except.ok v
  | _ => Except.error ParseError.castFail

/-- `static_cast<IntField*>(record[i].get())->val`, modelled like
`fieldString`. -/
def fieldInt (record : List Field) (i : Nat) : Except ParseError Int :=
  match record[i]? with
  | some (Field.intF v) => Except.ok v
  | _ => Except.error ParseError.castFail

/-- `static_cast<FloatField*>(record[i].get())->val`, modelled like
`fieldString`. -/
def fieldFloat (record : List Field) (i : Nat) : Except ParseError ℚ :=
  match record[i]? with
  | some (Field.floatF v) => Except.ok v
  | _ => Except.error ParseError.castFail

/-- The `switch (cur_table_flag)` of `loadTablesFromCSV`: feed one parsed
record into the indexed store.  `flag = none` models the case where no
recognized table name has been seen yet, in which case the C++ switch reads
an uninitialized `int`; the reachable behaviour (no case label matches) is
the `default: break`, i.e. no store update.  Field extraction order within
each case follows the source exactly. -/
def applyIndex (flag : Option TableName) (record : List Field) (st : EngineState) :
    Except ParseError EngineState :=
  match flag, st with
  | some TableName.TRADABLE, ⟨tabs, hdrs, cls, pr, vol, trs⟩ =>
    match fieldString record 0 with
    | Except.error e => Except.error e
    | Except.ok name =>
      match fieldString record 1 with
      | Except.error e => Except.error e
      | Except.ok asset_class =>
        Except.ok ⟨tabs, hdrs, mapInsert strLt name asset_class cls, pr, vol, trs⟩
  | some TableName.PRICE_OVER_TIME, ⟨tabs, hdrs, cls, pr, vol, trs⟩ =>
    match fieldString record 1 with
    | Except.error e => Except.error e
    | Except.ok name =>
      match fieldInt record 0 with
      | Except.error e => Except.error e
      | Except.ok day =>
        match fieldFloat record 2 with
        | Except.error e => Except.error e
        | Except.ok price =>
          match mapFind name pr with
          | some _ =>
            Except.ok ⟨tabs, hdrs, cls, mapAdjust name (mapInsert intLt day price) pr, vol, trs⟩
          | none => Except.ok ⟨tabs, hdrs, cls, mapInsert strLt name [(day, price)] pr, vol, trs⟩
  | some TableName.VOLUME_OVER_TIME, ⟨tabs, hdrs, cls, pr, vol, trs⟩ =>
    match fieldString record 1 with
    | Except.error e => Except.error e
    | Except.ok name =>
      match fieldInt record 0 with
      | Except.error e => Except.error e
      | Except.ok day =>
        match fieldFloat record 2 with
        | Except.error e => Except.error e
        | Except.ok volume =>
          match mapFind name vol with
          | some _ =>
            Except.ok ⟨tabs, hdrs, cls, pr, mapAdjust name (mapInsert intLt day volume) vol, trs⟩
          | none => Except.ok ⟨tabs, hdrs, cls, pr, mapInsert strLt name [(day, volume)] vol, trs⟩
  | some TableName.TRADES, ⟨tabs, hdrs, cls, pr, vol, trs⟩ =>
    match fieldString record 2 with
    | Except.error e => Except.error e
    | Except.ok name =>
      match fieldInt record 1 with
      | Except.error e => Except.error e
      | Except.ok day =>
        match fieldInt record 0 with
        | Except.error e => Except.error e
        | Except.ok id =>
          match fieldInt record 3 with
          | Except.error e => Except.error e
          | Except.ok quant =>
            match mapFind name trs with
            | some _ =>
              Except.ok
                ⟨tabs, hdrs, cls, pr, vol, mapAdjust name (fun v => v ++ [(id, day, quant)]) trs⟩
            | none => Except.ok ⟨tabs, hdrs, cls, pr, vol, mapInsert strLt name [(id, day, quant)] trs⟩
  | none, _ => Except.ok st

/-- `tables.back()` mutation: append a record to the last table
(`currentTable.addRecord(record)`). -/
def updateLast (f : DenseTable → DenseTable) : List DenseTable → List DenseTable
  | [] => []
  | [t] => [f t]
  | t :: ts => t :: updateLast f ts

/-- `ReferenceQueryEngine::loadTablesFromCSV`, written as a recursion over the
remaining lines.  The extra arguments are the loop state: the engine members
accumulated so far and `cur_table_flag` (an `Option` because the C++ flag is
uninitialized until the first recognized table name; a marker with an
unrecognized name leaves the flag unchanged, as the commented-out `else
assert(false)` branch in the source does).  Every C++ `assert` and fatal
branch returns the corresponding `ParseError` together with the engine state
at that moment. -/
def loadTablesFromCSV : List (List String) → EngineState → Option TableName → ParseResult
  | [], st, _ => ParseResult.ok st
  | l :: rest, st, flag =>
    match l with
    | [] => ParseResult.err ParseError.emptyLine st
    | l0 :: ltail =>
      if l0 = "<TABLE>" then
        match rest with
        | columnNames :: columnTypeNames :: rest2 =>
          if columnNames.length < 1 then ParseResult.err ParseError.emptyHeader st
          else if columnNames.length ≠ columnTypeNames.length then
            ParseResult.err ParseError.headerArityMismatch st
          else
            match parseTypes columnTypeNames with
            | none => ParseResult.err ParseError.unknownColumnType st
            | some columnTypes =>
              match ltail with
              | [] => ParseResult.err ParseError.markerNoName st
              | tname :: _ =>
                let flag' :=
                  if tname = "tradable" then some TableName.TRADABLE
                  else if tname = "price-over-time" then some TableName.PRICE_OVER_TIME
                  else if tname = "volume-over-time" then some TableName.VOLUME_OVER_TIME
                  else if tname = "trades" then some TableName.TRADES
                  else flag
                match st with
                | ⟨tabs, hdrs, cls, pr, vol, trs⟩ =>
                  loadTablesFromCSV rest2
                    ⟨tabs ++ [{ name := tname, columnNames := columnNames,
                                columnTypes := columnTypes, records := [] }],
                     hdrs ++ [(tname, columnNames, columnTypes)], cls, pr, vol, trs⟩
                    flag'
        | _ => ParseResult.err ParseError.truncatedHeader st
      else
        match st.tables.getLast? with
        | none => ParseResult.err ParseError.noActiveTable st
        | some currentTable =>
          if (l0 :: ltail).length ≠ currentTable.columnNames.length then
            ParseResult.err ParseError.arityMismatch st
          else
            match parseRecord currentTable.columnTypes (l0 :: ltail) with
            | Except.error e => ParseResult.err e st
            | Except.ok record =>
              match applyIndex flag record st with
              | Except.error e => ParseResult.err e st
              | Except.ok ⟨tabs2, hdrs2, cls2, pr2, vol2, trs2⟩ =>
                loadTablesFromCSV rest
                  ⟨updateLast (fun t => { t with records := t.records ++ [record] }) tabs2,
                   hdrs2, cls2, pr2, vol2, trs2⟩
                  flag

/-- The range scan shared by the two validity loops of `exe`: walk the series
from the start of the scan, stop (validity preserved) at the first day key
above `268`, and fail at the first entry satisfying `bad`. -/
def scanRange (bad : Int × ℚ → Bool) : List (Int × ℚ) → Bool
  | [] => true
  | e :: rest =>
    if e.1 ≤ 268 then (if bad e then false else scanRange bad rest) else true

/-- The price validity loop of `exe`: starting from `lower_bound(13)` (the
first entry with day key at least 13 — `dropWhile` on the sorted series),
scan days up to `268` and fail when a price is strictly above `299.0`. -/
def priceOk (m : List (Int × ℚ)) : Bool :=
  scanRange (fun e => decide ((299 : ℚ) < e.2)) (m.dropWhile (fun e => e.1 < 13))

/-- The volume validity loop of `exe`: same range, failing when a volume is
strictly below `10.0`. -/
def volumeOk (m : List (Int × ℚ)) : Bool :=
  scanRange (fun e => decide (e.2 < (10 : ℚ))) (m.dropWhile (fun e => e.1 < 13))

/-- One iteration of the instrument loop of `ReferenceQueryEngine::exe`.  The
accumulator is `(valid_stock_cnt, valid_bond_cnt, valid_flag)`; crucially,
`valid_flag` is part of the accumulator because the C++ variable is declared
OUTSIDE the loop and therefore carries over from one instrument to the
next. -/
def exeStep (st : EngineState) (acc : Int × Int × Bool) (e : String × String) :
    Int × Int × Bool :=
  let sc := acc.1
  let bc := acc.2.1
  let vf := acc.2.2
  if e.2 ≠ "stock" ∧ e.2 ≠ "bond" then acc
  else
    match mapFind e.1 st.name_to_trades with
    | none => acc
    | some tr =>
      let vf1 :=
        match mapFind e.1 st.name_to_date_price with
        | some dp => priceOk dp
        | none => vf
      if vf1 then
        if e.2 = "stock" then (sc + (tr.length : Int), bc, vf1)
        else (sc, bc + (tr.length : Int), vf1)
      else
        let vf2 :=
          match mapFind e.1 st.name_to_date_volume with
          | some dv => volumeOk dv
          | none => vf1
        if vf2 then
          if e.2 = "stock" then (sc + (tr.length : Int), bc, vf2)
          else (sc, bc + (tr.length : Int), vf2)
        else (sc, bc, vf2)

/-- The counting loop of `exe`: iterate over `name_to_class` in its (sorted)
iteration order, starting from `valid_stock_cnt = 0`, `valid_bond_cnt = 0`,
`valid_flag = false`. -/
def classTotals (st : EngineState) : Int × Int × Bool :=
  st.name_to_class.foldl (exeStep st) (0, 0, false)

/-- `ReferenceQueryEngine::exe`: run the counting loop, then build the result
table, emitting the bond row (if its count is nonzero) before the stock row
(if its count is nonzero). -/
def exe (st : EngineState) : DenseTable :=
  let totals := classTotals st
  let sc := totals.1
  let bc := totals.2.1
  { name := "asset-class_counts"
    columnNames := ["asset-class", "count"]
    columnTypes := [FieldType.tString, FieldType.tInt]
    records :=
      (if bc ≠ 0 then [[Field.stringF "bond", Field.intF bc]] else []) ++
      (if sc ≠ 0 then [[Field.stringF "stock", Field.intF sc]] else []) }

/-- The driver pipeline of `main`, minus file I/O and timing: load the lines,
then run the query (the driver runs `exe` five times and keeps the last
result; with the loaded state untouched by `exe` this is one run). -/
def run (lines : List (List String)) : Option DenseTable :=
  match loadTablesFromCSV lines initState none with
  | ParseResult.ok st => some (exe st)
  | ParseResult.err _ _ => none

/-- Character-level worker for `split_at`: split a character list at every
occurrence of the delimiter character, keeping empty tokens (the result is
always nonempty; the text after the final occurrence — possibly empty — is
the last token, exactly as the C++ loop pushes the remaining suffix last). -/
def splitAtChar (d : Char) : List Char → List (List Char)
  | [] => [[]]
  | c :: rest =>
    match splitAtChar d rest with
    | [] => [[]]
    | t :: ts => if c = d then [] :: t :: ts else (c :: t) :: ts

/-- `split_at` from the source, specialized to a one-character delimiter (the
driver only ever calls it with `"\n"` and `","`). -/
def split_at (t : String) (delimiter : Char) : List String :=
  (splitAtChar delimiter t.data).map (fun l => String.mk l)

/-- The line/field splitting performed by `main` before calling
`loadTablesFromCSV`: split at newlines, drop the final element
(`lines.pop_back()`), split each line at commas. -/
def csvSplit (str : String) : List (List String) :=
  ((split_at str '\n').dropLast).map (fun l => split_at l ',')

/-- `DenseTable::print`: the marker line, then the column TYPES, then the
column NAMES (the reverse of the input header order), then the rows, each
line newline-terminated and comma-separated. -/
def DenseTable.print (t : DenseTable) : String :=
  "<TABLE>," ++ t.name ++ "\n" ++
  String.intercalate "," (t.columnTypes.map FieldType.render) ++ "\n" ++
  String.intercalate "," t.columnNames ++ "\n" ++
  String.join (t.records.map (fun r => String.intercalate "," (r.map Field.render) ++ "\n"))

/-- `DenseTable::print` at the pre-split level: the list of comma-separated
fields per line that `csvSplit ∘ DenseTable.print` yields whenever the table
name, the column names and the rendered fields contain no newline and no
comma (the serialized output is exactly these lines joined with commas and
terminated with newlines). -/
def printLines (t : DenseTable) : List (List String) :=
  ["<TABLE>", t.name] ::
  (t.columnTypes.map FieldType.render) ::
  t.columnNames ::
  t.records.map (fun r => r.map Field.render)

/-- Lookup of one indexed price: `name_to_date_price[name][day]` read through
`find`. -/
def priceAt (st : EngineState) (name : String) (day : Int) : Option ℚ :=
  (mapFind name st.name_to_date_price).bind (fun m => mapFind day m)

/-- Project the final engine state out of a load result. -/
def resultState : ParseResult → Option EngineState
  | ParseResult.ok st => some st
  | ParseResult.err _ _ => none

/-- Project the error out of a load result. -/
def resultError : ParseResult → Option ParseError
  | ParseResult.ok _ => none
  | ParseResult.err e _ => some e

/-- Strictly-ascending-key check for the association-list model of
`std::map`; every map built by `mapInsert` satisfies it. -/
def sortedByKey {β : Type} : List (Int × β) → Bool
  | [] => true
  | [_] => true
  | a :: b :: rest => decide (a.1 < b.1) && sortedByKey (b :: rest)

/-- Is a token one of the three recognized column-type names? -/
def goodTypeToken (s : String) : Bool := s = "INT" || s = "FLOAT" || s = "STRING"

/-- Syntactic over-approximation of "every line that can be consumed as a
column-type header contains only recognized type tokens": whenever a line
begins with the `<TABLE>` marker, the line two positions later (the one the
loader reads as the type header) contains only recognized tokens. -/
def goodHeaders : List (List String) → Bool
  | l :: names :: types :: rest =>
    (if l.head? = some "<TABLE>" then types.all goodTypeToken else true) &&
      goodHeaders (names :: types :: rest)
  | _ => true

/-- Concrete input for the duplicate-day claim (C1): a single
`price-over-time` table with two rows for instrument `AAA` on day `1`, first
with price `5.0`, then with price `7.0`. -/
def c1Lines : List (List String) :=
  [["<TABLE>", "price-over-time"],
   ["day", "name", "price"],
   ["INT", "STRING", "FLOAT"],
   ["1", "AAA", "5.0"],
   ["1", "AAA", "7.0"]]

/-- Concrete input for the neither-series claim (C2): stock `A` has one trade
and a passing price series; stock `B` has one trade and neither a price nor a
volume series. -/
def c2LinesBoth : List (List String) :=
  [["<TABLE>", "tradable"],
   ["name", "asset-class"],
   ["STRING", "STRING"],
   ["A", "stock"],
   ["B", "stock"],
   ["<TABLE>", "price-over-time"],
   ["day", "name", "price"],
   ["INT", "STRING", "FLOAT"],
   ["20", "A", "100.0"],
   ["<TABLE>", "trades"],
   ["trade-id", "day", "name", "quantity"],
   ["INT", "INT", "STRING", "INT"],
   ["1", "20", "A", "5"],
   ["2", "21", "B", "7"]]

/-- The same input with the `("B","stock")` classification row removed, so
that only `A` can contribute. -/
def c2LinesOnlyA : List (List String) :=
  [["<TABLE>", "tradable"],
   ["name", "asset-class"],
   ["STRING", "STRING"],
   ["A", "stock"],
   ["<TABLE>", "price-over-time"],
   ["day", "name", "price"],
   ["INT", "STRING", "FLOAT"],
   ["20", "A", "100.0"],
   ["<TABLE>", "trades"],
   ["trade-id", "day", "name", "quantity"],
   ["INT", "INT", "STRING", "INT"],
   ["1", "20", "A", "5"],
   ["2", "21", "B", "7"]]

/-- Concrete table for the round-trip claim (C3): the engine's own result
shape, with no FLOAT values at all (so the claim's float proviso is satisfied
vacuously). -/
def c3table : DenseTable :=
  { name := "asset-class_counts"
    columnNames := ["asset-class", "count"]
    columnTypes := [FieldType.tString, FieldType.tInt]
    records := [[Field.stringF "stock", Field.intF 5]] }

/-- A `std::map` access through `find`, made state-explicit: the container
comes back out of the operation.  `find` is read-only, so the container comes
back unchanged; the point of this formulation is that `exe` in the source
touches its member maps only through `find` and iteration (never through the
inserting `operator[]` or any mutator), which is what the frame claim is
about. -/
def findThread {β : Type} (k : String) (m : List (String × β)) :
    List (String × β) × Option β :=
  (m, mapFind k m)

/-- `ReferenceQueryEngine::exe`, one instrument, in state-threading form:
every member-map access goes through `findThread` and the (possibly updated)
engine state is returned alongside the accumulator. -/
def exeStepS (st : EngineState) (acc : Int × Int × Bool) (e : String × String) :
    EngineState × (Int × Int × Bool) :=
  let sc := acc.1
  let bc := acc.2.1
  let vf := acc.2.2
  if e.2 ≠ "stock" ∧ e.2 ≠ "bond" then (st, acc)
  else
    let tr0 := findThread e.1 st.name_to_trades
    let st1 := { st with name_to_trades := tr0.1 }
    match tr0.2 with
    | none => (st1, acc)
    | some tr =>
      let pr0 := findThread e.1 st1.name_to_date_price
      let st2 := { st1 with name_to_date_price := pr0.1 }
      let vf1 :=
        match pr0.2 with
        | some dp => priceOk dp
        | none => vf
      if vf1 then
        (st2,
         if e.2 = "stock" then (sc + (tr.length : Int), bc, vf1)
         else (sc, bc + (tr.length : Int), vf1))
      else
        let vo0 := findThread e.1 st2.name_to_date_volume
        let st3 := { st2 with name_to_date_volume := vo0.1 }
        let vf2 :=
          match vo0.2 with
          | some dv => volumeOk dv
          | none => vf1
        (st3,
         if vf2 then
           if e.2 = "stock" then (sc + (tr.length : Int), bc, vf2)
           else (sc, bc + (tr.length : Int), vf2)
         else (sc, bc, vf2))

/-- `ReferenceQueryEngine::exe` in state-threading form: the engine state
passes through every instrument iteration and the result-table construction
(which touches no member at all), and is returned alongside the result. -/
def exeS (st : EngineState) : EngineState × DenseTable :=
  let r := st.name_to_class.foldl (fun p e => exeStepS p.1 p.2 e) (st, (0, 0, false))
  let sc := r.2.1
  let bc := r.2.2.1
  (r.1,
   { name := "asset-class_counts"
     columnNames := ["asset-class", "count"]
     columnTypes := [FieldType.tString, FieldType.tInt]
     records :=
       (if bc ≠ 0 then [[Field.stringF "bond", Field.intF bc]] else []) ++
       (if sc ≠ 0 then [[Field.stringF "stock", Field.intF sc]] else []) })

/-- Sanity link between the string-level serializer and its line-level view:
on the concrete result-shaped table, `main`'s splitting of the printed text
yields exactly `printLines`. -/
lemma csvSplit_print_c3table : csvSplit (DenseTable.print c3table) = printLines c3table := by
  decide

/-! ### Helper lemmas -/

lemma sortedByKey_cons {β : Type} {a : Int × β} {l : List (Int × β)}
    (h : sortedByKey (a :: l) = true) :
    sortedByKey l = true ∧ ∀ e ∈ l, a.1 < e.1 := by
  induction l generalizing a with
  | nil => exact ⟨rfl, by simp⟩
  | cons b l ih =>
    rw [sortedByKey, Bool.and_eq_true, decide_eq_true_eq] at h
    obtain ⟨hab, hbl⟩ := h
    obtain ⟨_, hall⟩ := ih hbl
    refine ⟨hbl, ?_⟩
    intro e he
    rcases List.mem_cons.mp he with rfl | he'
    · exact hab
    · exact lt_trans hab (hall e he')

lemma sortedByKey_cons_of {β : Type} {a : Int × β} {l : List (Int × β)}
    (hl : sortedByKey l = true) (hall : ∀ e ∈ l, a.1 < e.1) :
    sortedByKey (a :: l) = true := by
  cases l with
  | nil => rfl
  | cons b r =>
    rw [sortedByKey, Bool.and_eq_true, decide_eq_true_eq]
    exact ⟨hall b (List.mem_cons_self b r), hl⟩

lemma sortedByKey_sublist {β : Type} {l l' : List (Int × β)} (hsub : List.Sublist l' l)
    (h : sortedByKey l = true) : sortedByKey l' = true := by
  induction hsub with
  | slnil => rfl
  | cons a _ ih => exact ih (sortedByKey_cons h).1
  | cons₂ a hsub ih =>
    obtain ⟨hl, hall⟩ := sortedByKey_cons h
    exact sortedByKey_cons_of (ih hl) (fun e he => hall e (hsub.subset he))

lemma scanRange_true_iff (bad : Int × ℚ → Bool) (l : List (Int × ℚ))
    (hs : sortedByKey l = true) :
    scanRange bad l = true ↔ ∀ e ∈ l, e.1 ≤ 268 → bad e = false := by
  induction l with
  | nil => exact ⟨fun _ => by simp, fun _ => rfl⟩
  | cons a l ih =>
    obtain ⟨hsl, hall⟩ := sortedByKey_cons hs
    by_cases h268 : a.1 ≤ 268
    · by_cases hbad : bad a = true
      · rw [scanRange, if_pos h268, if_pos hbad]
        refine ⟨fun hf => absurd hf (by simp), fun h => ?_⟩
        have h' := h a (List.mem_cons_self a l) h268
        rw [hbad] at h'
        exact absurd h' (by simp)
      · rw [scanRange, if_pos h268, if_neg hbad, ih hsl]
        constructor
        · intro h e he he268
          rcases List.mem_cons.mp he with rfl | he'
          · exact Bool.eq_false_iff.mpr hbad
          · exact h e he' he268
        · intro h e he he268
          exact h e (List.mem_cons_of_mem a he) he268
    · rw [scanRange, if_neg h268]
      simp only [true_iff]
      intro e he he268
      rcases List.mem_cons.mp he with rfl | he'
      · exact absurd he268 h268
      · exact absurd he268 (not_le.mpr (lt_trans (not_le.mp h268) (hall e he')))

lemma seriesScan_iff (bad : Int × ℚ → Bool) (m : List (Int × ℚ))
    (hs : sortedByKey m = true) :
    scanRange bad (m.dropWhile (fun e => e.1 < 13)) = true ↔
      ∀ e ∈ m, 13 ≤ e.1 → e.1 ≤ 268 → bad e = false := by
  induction m with
  | nil => simp [scanRange]
  | cons a l ih =>
    obtain ⟨hsl, hall⟩ := sortedByKey_cons hs
    rw [List.dropWhile_cons]
    by_cases h13 : a.1 < 13
    · rw [if_pos (by simpa using h13), ih hsl]
      constructor
      · intro h e he h13' h268
        rcases List.mem_cons.mp he with rfl | he'
        · exact absurd h13' (not_le.mpr h13)
        · exact h e he' h13' h268
      · intro h e he h13' h268
        exact h e (List.mem_cons_of_mem a he) h13' h268
    · rw [if_neg (by simpa using h13),
        scanRange_true_iff bad (a :: l) hs]
      constructor
      · intro h e he h13' h268
        exact h e he h268
      · intro h e he h268
        rcases List.mem_cons.mp he with rfl | he'
        · exact h e (List.mem_cons_self e l) (not_lt.mp h13) h268
        · exact h e (List.mem_cons_of_mem a he')
            (le_of_lt (lt_of_le_of_lt (not_lt.mp h13) (hall e he'))) h268

lemma priceOk_true_iff (m : List (Int × ℚ)) (hs : sortedByKey m = true) :
    priceOk m = true ↔ ∀ e ∈ m, 13 ≤ e.1 → e.1 ≤ 268 → e.2 ≤ 299 := by
  rw [priceOk, seriesScan_iff _ m hs]
  simp only [decide_eq_false_iff_not, not_lt]

lemma volumeOk_true_iff (m : List (Int × ℚ)) (hs : sortedByKey m = true) :
    volumeOk m = true ↔ ∀ e ∈ m, 13 ≤ e.1 → e.1 ≤ 268 → 10 ≤ e.2 := by
  rw [volumeOk, seriesScan_iff _ m hs]
  simp only [decide_eq_false_iff_not, not_lt]

lemma priceOk_false_of_bad {m : List (Int × ℚ)} (hs : sortedByKey m = true)
    {e : Int × ℚ} (he : e ∈ m) (h13 : 13 ≤ e.1) (h268 : e.1 ≤ 268)
    (hgt : (299 : ℚ) < e.2) : priceOk m = false := by
  rw [Bool.eq_false_iff]
  intro htrue
  exact absurd hgt (not_lt.mpr ((priceOk_true_iff m hs).mp htrue e he h13 h268))

lemma mapFind_mem {α β : Type} [DecidableEq α] {k : α} {m : List (α × β)} {v : β}
    (h : mapFind k m = some v) : (k, v) ∈ m := by
  induction m with
  | nil => exact absurd h (by simp [mapFind])
  | cons a l ih =>
    obtain ⟨k', v'⟩ := a
    rw [mapFind] at h
    by_cases hk : k = k'
    · rw [if_pos hk] at h
      obtain rfl := Option.some_injective _ h
      exact hk ▸ List.mem_cons_self _ _
    · exact List.mem_cons_of_mem _ (ih (by rwa [if_neg hk] at h))

lemma mapInsert_keep {β : Type} {k : Int} {v' : β} {m : List (Int × β)} {p : β}
    (hs : sortedByKey m = true) (hf : mapFind k m = some p) :
    mapInsert intLt k v' m = m := by
  induction m with
  | nil => exact absurd hf (by simp [mapFind])
  | cons a l ih =>
    obtain ⟨k', v''⟩ := a
    obtain ⟨hsl, hall⟩ := sortedByKey_cons hs
    rw [mapInsert]
    by_cases hlt : intLt k k'
    · exfalso
      rw [mapFind] at hf
      have hne : ¬k = k' := by
        intro heq
        rw [intLt, decide_eq_true_eq, heq] at hlt
        exact lt_irrefl k' hlt
      rw [if_neg hne] at hf
      have hmem := mapFind_mem hf
      have := hall (k, p) hmem
      rw [intLt, decide_eq_true_eq] at hlt
      exact absurd hlt (not_lt.mpr (le_of_lt this))
    · rw [if_neg hlt]
      by_cases hk : k = k'
      · rw [if_pos hk]
      · rw [if_neg hk, mapFind, if_neg hk] at *
        rw [ih hsl hf]

lemma mapFind_mapAdjust {α β : Type} [DecidableEq α] (k : α) (f : β → β)
    (m : List (α × β)) : mapFind k (mapAdjust k f m) = (mapFind k m).map f := by
  induction m with
  | nil => rfl
  | cons a l ih =>
    obtain ⟨k', v'⟩ := a
    by_cases h : k = k' <;> simp [mapAdjust, mapFind, h, ih]

lemma parseTypes_isSome_of_all {types : List String}
    (h : types.all goodTypeToken = true) : (parseTypes types).isSome = true := by
  induction types with
  | nil => rfl
  | cons c rest ih =>
    rw [List.all_cons, Bool.and_eq_true] at h
    obtain ⟨hc, hrest⟩ := h
    obtain ⟨ts, hts⟩ := Option.isSome_iff_exists.mp (ih hrest)
    rw [goodTypeToken, Bool.or_eq_true, Bool.or_eq_true, decide_eq_true_eq,
      decide_eq_true_eq, decide_eq_true_eq] at hc
    rcases hc with (h | h) | h <;> subst h <;> simp [parseTypes, hts]

lemma parseTypes_none_of_bad {types : List String} {tok : String} (hmem : tok ∈ types)
    (hbad : goodTypeToken tok = false) : parseTypes types = none := by
  induction types with
  | nil => cases hmem
  | cons c rest ih =>
    rw [goodTypeToken] at hbad
    rcases List.mem_cons.mp hmem with rfl | hmem'
    · simp only [Bool.or_eq_false_iff, decide_eq_false_iff_not] at hbad
      obtain ⟨⟨h1, h2⟩, h3⟩ := hbad
      rw [parseTypes, if_neg h3, if_neg h1, if_neg h2]
    · cases hgood : goodTypeToken c with
      | false =>
        rw [goodTypeToken] at hgood
        simp only [Bool.or_eq_false_iff, decide_eq_false_iff_not] at hgood
        obtain ⟨⟨h1, h2⟩, h3⟩ := hgood
        rw [parseTypes, if_neg h3, if_neg h1, if_neg h2]
      | true =>
        rw [goodTypeToken, Bool.or_eq_true, Bool.or_eq_true, decide_eq_true_eq,
          decide_eq_true_eq, decide_eq_true_eq] at hgood
        rcases hgood with (h | h) | h <;> subst h <;> simp [parseTypes, ih hmem']

lemma goodHeaders_tail {x : List String} {xs : List (List String)}
    (h : goodHeaders (x :: xs) = true) : goodHeaders xs = true := by
  match xs with
  | [] => rfl
  | [_] => rfl
  | [_, _] => rfl
  | a :: b :: c :: rest =>
    rw [goodHeaders, Bool.and_eq_true] at h
    exact h.2

lemma parseField_error {tp : FieldType} {s : String} {e : ParseError}
    (h : parseField tp s = Except.error e) :
    e = ParseError.intParseError ∨ e = ParseError.floatParseError := by
  cases tp with
  | tInt =>
    rw [parseField] at h
    cases hp : parseIntCpp s with
    | some v => rw [hp] at h; exact absurd h (by simp)
    | none => rw [hp] at h; exact Or.inl (by injection h with h'; exact h'.symm)
  | tFloat =>
    rw [parseField] at h
    cases hp : parseFloatCpp s with
    | some v => rw [hp] at h; exact absurd h (by simp)
    | none => rw [hp] at h; exact Or.inr (by injection h with h'; exact h'.symm)
  | tString => exact absurd h (by simp [parseField])

lemma parseRecord_error {tps : List FieldType} {ss : List String} :
    ∀ {e : ParseError}, parseRecord tps ss = Except.error e →
      e = ParseError.intParseError ∨ e = ParseError.floatParseError := by
  induction tps generalizing ss with
  | nil => intro e h; exact absurd h (by simp [parseRecord])
  | cons tp tps ih =>
    intro e h
    cases ss with
    | nil => exact absurd h (by simp [parseRecord])
    | cons s ss =>
      rw [parseRecord] at h
      cases hf : parseField tp s with
      | error e' =>
        rw [hf] at h
        injection h with h'
        exact h' ▸ parseField_error hf
      | ok f =>
        rw [hf] at h
        cases hr : parseRecord tps ss with
        | error e' =>
          rw [hr] at h
          injection h with h'
          exact h' ▸ ih hr
        | ok r => rw [hr] at h; exact absurd h (by simp)

lemma fieldString_error {record : List Field} {i : Nat} {e : ParseError}
    (h : fieldString record i = Except.error e) : e = ParseError.castFail := by
  rw [fieldString] at h
  split at h
  · exact absurd h (by simp)
  · injection h with h'; exact h'.symm

lemma fieldInt_error {record : List Field} {i : Nat} {e : ParseError}
    (h : fieldInt record i = Except.error e) : e = ParseError.castFail := by
  rw [fieldInt] at h
  split at h
  · exact absurd h (by simp)
  · injection h with h'; exact h'.symm

lemma fieldFloat_error {record : List Field} {i : Nat} {e : ParseError}
    (h : fieldFloat record i = Except.error e) : e = ParseError.castFail := by
  rw [fieldFloat] at h
  split at h
  · exact absurd h (by simp)
  · injection h with h'; exact h'.symm

lemma exeStepS_eq (st : EngineState) (acc : Int × Int × Bool) (e : String × String) :
    exeStepS st acc e = (st, exeStep st acc e) := by
  rw [exeStepS, exeStep]
  by_cases hcls : e.2 ≠ "stock" ∧ e.2 ≠ "bond"
  · rw [if_pos hcls, if_pos hcls]
  · rw [if_neg hcls, if_neg hcls]
    cases htr : mapFind e.1 st.name_to_trades with
    | none => simp [findThread, htr]
    | some tr =>
      cases hpr : mapFind e.1 st.name_to_date_price with
      | none =>
        cases hvf : acc.2.2 with
        | true => simp [findThread, htr, hpr, hvf]
        | false =>
          cases hvo : mapFind e.1 st.name_to_date_volume with
          | none => simp [findThread, htr, hpr, hvf, hvo]
          | some dv => cases hok : volumeOk dv <;> simp [findThread, htr, hpr, hvf, hvo, hok]
      | some dp =>
        cases hok : priceOk dp with
        | true => simp [findThread, htr, hpr, hok]
        | false =>
          cases hvo : mapFind e.1 st.name_to_date_volume with
          | none => simp [findThread, htr, hpr, hok, hvo]
          | some dv => cases hok2 : volumeOk dv <;> simp [findThread, htr, hpr, hok, hvo, hok2]

lemma foldl_thread (l : List (String × String)) (st : EngineState) (a : Int × Int × Bool) :
    l.foldl (fun p e => exeStepS p.1 p.2 e) (st, a) = (st, l.foldl (exeStep st) a) := by
  induction l generalizing a with
  | nil => rfl
  | cons e l ih =>
    simp only [List.foldl_cons, exeStepS_eq] at ih ⊢
    exact ih (exeStep st a e)

lemma exeS_eq (st : EngineState) : exeS st = (st, exe st) := by
  rw [exeS, exe, classTotals, foldl_thread]

lemma applyIndex_error {flag : Option TableName} {record : List Field}
    {st : EngineState} {e : ParseError}
    (h : applyIndex flag record st = Except.error e) : e = ParseError.castFail := by
  obtain ⟨tabs, hdrs, cls, pr, vol, trs⟩ := st
  cases flag with
  | none => exact absurd h (by simp [applyIndex])
  | some tn =>
    cases tn <;>
      (rw [applyIndex] at h
       repeat' split at h
       all_goals cases h
       all_goals first
         | exact fieldString_error (by assumption)
         | exact fieldInt_error (by assumption)
         | exact fieldFloat_error (by assumption))

/-! ### Claim theorems -/

/-- C1, counterexample: on an input with two `price-over-time` rows for
(`AAA`, day 1), first price `5.0` then price `7.0`, the indexed price series
built by `loadTablesFromCSV` retains the EARLIER price `5.0`, not the later
`7.0` as the claim states (`std::map::insert` does not overwrite an existing
key). -/
theorem c1_counterexample :
    (resultState (loadTablesFromCSV c1Lines initState none)).map
        (fun st => priceAt st "AAA" 1) = some (some 5) ∧
    (resultState (loadTablesFromCSV c1Lines initState none)).map
        (fun st => priceAt st "AAA" 1) ≠ some (some 7) := by
  exact ⟨by decide, by decide⟩

/-- C1, amended: for two price rows for the same (instrument, day) with
different prices, the indexed series retains only the EARLIER row's price:
processing a later `price-over-time` row for a (name, day) already present in
the series leaves the stored price unchanged. -/
theorem c1_duplicate_day_keeps_first :
    ∀ (st : EngineState) (name : String) (day : Int) (m : List (Int × ℚ)) (p1 p2 : ℚ),
      mapFind name st.name_to_date_price = some m →
      sortedByKey m = true →
      mapFind day m = some p1 →
      p2 ≠ p1 →
      ∃ st', applyIndex (some TableName.PRICE_OVER_TIME)
          [Field.intF day, Field.stringF name, Field.floatF p2] st = Except.ok st' ∧
        priceAt st' name day = some p1 ∧ priceAt st' name day ≠ some p2 := by
  intro st name day m p1 p2 hm hs hfind hne
  obtain ⟨tabs, hdrs, cls, pr, vol, trs⟩ := st
  have hpa : priceAt ⟨tabs, hdrs, cls, mapAdjust name (mapInsert intLt day p2) pr, vol, trs⟩
      name day = some p1 := by
    rw [priceAt]
    show (mapFind name (mapAdjust name (mapInsert intLt day p2) pr)).bind
        (fun mm => mapFind day mm) = some p1
    rw [mapFind_mapAdjust, hm]
    show mapFind day (mapInsert intLt day p2 m) = some p1
    rw [mapInsert_keep hs hfind, hfind]
  refine ⟨⟨tabs, hdrs, cls, mapAdjust name (mapInsert intLt day p2) pr, vol, trs⟩, ?_, hpa, ?_⟩
  · rw [applyIndex]
    show (match mapFind name pr with
      | some _ => Except.ok (⟨tabs, hdrs, cls, mapAdjust name (mapInsert intLt day p2) pr,
          vol, trs⟩ : EngineState)
      | none => Except.ok ⟨tabs, hdrs, cls, mapInsert strLt name [(day, p2)] pr, vol, trs⟩) = _
    rw [hm]
  · rw [hpa]
    intro hc
    exact hne (Option.some_injective _ hc).symm

/-- C1, witness for the amended theorem at a concrete state. -/
theorem c1_duplicate_day_keeps_first_witness :
    ∃ st', applyIndex (some TableName.PRICE_OVER_TIME)
        [Field.intF 1, Field.stringF "AAA", Field.floatF 7]
        ⟨[], [], [], [("AAA", [(1, 5)])], [], []⟩ = Except.ok st' ∧
      priceAt st' "AAA" 1 = some 5 ∧ priceAt st' "AAA" 1 ≠ some 7 :=
  c1_duplicate_day_keeps_first ⟨[], [], [], [("AAA", [(1, 5)])], [], []⟩ "AAA" 1
    [(1, 5)] 5 7 (by decide) (by decide) (by decide) (by decide)

/-- C2, counterexample: stock `B` has one trade and neither a price nor a
volume series, yet the query counts it: with instrument `A` (passing price
series, one trade) processed before `B`, the stock total is 2; with `B`'s
classification row removed the total is 1 — so `B` added its trade count,
contradicting the claim's "regardless of which instruments were processed
before it" (the C++ `valid_flag` is declared outside the instrument loop and
carries over). -/
theorem c2_counterexample :
    run c2LinesBoth = some
      { name := "asset-class_counts", columnNames := ["asset-class", "count"],
        columnTypes := [FieldType.tString, FieldType.tInt],
        records := [[Field.stringF "stock", Field.intF 2]] } ∧
    run c2LinesOnlyA = some
      { name := "asset-class_counts", columnNames := ["asset-class", "count"],
        columnTypes := [FieldType.tString, FieldType.tInt],
        records := [[Field.stringF "stock", Field.intF 1]] } := by
  exact ⟨by decide, by decide⟩

/-- C2, amended: a stock/bond instrument with at least one trade record but
neither a price nor a volume series adds nothing to any class total PROVIDED
the validity flag carried into its loop iteration is `false` (e.g. it is the
first instrument evaluated); because `valid_flag` persists across iterations,
such an instrument is counted whenever the previously evaluated instrument
left the flag `true`. -/
theorem c2_neither_series_needs_false_flag :
    ∀ (st : EngineState) (sc bc : Int) (name cls : String) (tr : List (Int × Int × Int)),
      (cls = "stock" ∨ cls = "bond") →
      mapFind name st.name_to_trades = some tr →
      mapFind name st.name_to_date_price = none →
      mapFind name st.name_to_date_volume = none →
      exeStep st (sc, bc, false) (name, cls) = (sc, bc, false) := by
  intro st sc bc name cls tr hcls htr hp hv
  rcases hcls with rfl | rfl <;> simp [exeStep, htr, hp, hv]

/-- C2, witness for the amended theorem at a concrete state. -/
theorem c2_neither_series_needs_false_flag_witness :
    exeStep ⟨[], [], [("B", "stock")], [], [], [("B", [(2, 21, 7)])]⟩ (0, 0, false)
      ("B", "stock") = (0, 0, false) :=
  c2_neither_series_needs_false_flag ⟨[], [], [("B", "stock")], [], [], [("B", [(2, 21, 7)])]⟩
    0 0 "B" "stock" [(2, 21, 7)] (Or.inl rfl) (by decide) (by decide) (by decide)

/-- C4: a stock/bond instrument with a trade record, a price series that
FAILS the price check (some day in [13, 268] with price above 299.0) and a
volume series that PASSES the volume check (no day in [13, 268] with volume
below 10.0) still has its trade count added to its class total, whatever the
incoming carried flag is. -/
theorem c4_failing_price_passing_volume_counted :
    ∀ (st : EngineState) (sc bc : Int) (vf : Bool) (name cls : String)
      (tr : List (Int × Int × Int)) (dp dv : List (Int × ℚ)),
      (cls = "stock" ∨ cls = "bond") →
      mapFind name st.name_to_trades = some tr →
      mapFind name st.name_to_date_price = some dp →
      sortedByKey dp = true →
      (∃ e ∈ dp, 13 ≤ e.1 ∧ e.1 ≤ 268 ∧ (299 : ℚ) < e.2) →
      mapFind name st.name_to_date_volume = some dv →
      sortedByKey dv = true →
      (∀ e ∈ dv, 13 ≤ e.1 → e.1 ≤ 268 → (10 : ℚ) ≤ e.2) →
      exeStep st (sc, bc, vf) (name, cls) =
        if cls = "stock" then (sc + (tr.length : Int), bc, true)
        else (sc, bc + (tr.length : Int), true) := by
  intro st sc bc vf name cls tr dp dv hcls htr hp hsp hex hv hsv hall
  obtain ⟨e, he, h13, h268, hgt⟩ := hex
  have hpf : priceOk dp = false := priceOk_false_of_bad hsp he h13 h268 hgt
  have hvt : volumeOk dv = true := (volumeOk_true_iff dv hsv).mpr hall
  rcases hcls with rfl | rfl <;> simp [exeStep, htr, hp, hv, hpf, hvt]

/-- C4, witness at a concrete state: price 300.0 on day 13 (failing), volume
50.0 on day 20 (passing), one trade. -/
theorem c4_failing_price_passing_volume_counted_witness :
    exeStep ⟨[], [], [("AAA", "stock")], [("AAA", [(13, 300)])], [("AAA", [(20, 50)])],
        [("AAA", [(1, 13, 5)])]⟩ (0, 0, false) ("AAA", "stock") = (1, 0, true) := by
  have h := c4_failing_price_passing_volume_counted
    ⟨[], [], [("AAA", "stock")], [("AAA", [(13, 300)])], [("AAA", [(20, 50)])],
      [("AAA", [(1, 13, 5)])]⟩ 0 0 false "AAA" "stock" [(1, 13, 5)] [(13, 300)] [(20, 50)]
    (Or.inl rfl) (by decide) (by decide) (by decide)
    ⟨(13, 300), by decide, by decide, by decide, by decide⟩ (by decide) (by decide) (by decide)
  rw [h]
  decide

/-- C5: in the validity scans, a price of exactly 299.0 in range never fails
the price scan (strict `>`), a volume of exactly 10.0 in range never fails
the volume scan (strict `<`), and entries outside day range [13, 268] (in
particular day 12 and day 269) never affect either scan's outcome. -/
theorem c5_validity_boundary :
    ∀ (mp mv : List (Int × ℚ)),
      sortedByKey mp = true → sortedByKey mv = true →
      ((∀ e ∈ mp, 13 ≤ e.1 → e.1 ≤ 268 → e.2 ≤ 299) → priceOk mp = true) ∧
      ((∀ e ∈ mv, 13 ≤ e.1 → e.1 ≤ 268 → 10 ≤ e.2) → volumeOk mv = true) ∧
      priceOk mp = priceOk (mp.filter (fun e => decide (13 ≤ e.1) && decide (e.1 ≤ 268))) ∧
      volumeOk mv = volumeOk (mv.filter (fun e => decide (13 ≤ e.1) && decide (e.1 ≤ 268))) := by
  intro mp mv hsp hsv
  have hfp : sortedByKey (mp.filter (fun e => decide (13 ≤ e.1) && decide (e.1 ≤ 268))) = true :=
    sortedByKey_sublist (List.filter_sublist mp) hsp
  have hfv : sortedByKey (mv.filter (fun e => decide (13 ≤ e.1) && decide (e.1 ≤ 268))) = true :=
    sortedByKey_sublist (List.filter_sublist mv) hsv
  refine ⟨(priceOk_true_iff mp hsp).mpr, (volumeOk_true_iff mv hsv).mpr, ?_, ?_⟩
  · rw [Bool.eq_iff_iff, priceOk_true_iff mp hsp, priceOk_true_iff _ hfp]
    constructor
    · intro h e he h13 h268
      exact h e (List.mem_of_mem_filter he) h13 h268
    · intro h e he h13 h268
      exact h e (List.mem_filter.mpr ⟨he, by simp [h13, h268]⟩) h13 h268
  · rw [Bool.eq_iff_iff, volumeOk_true_iff mv hsv, volumeOk_true_iff _ hfv]
    constructor
    · intro h e he h13 h268
      exact h e (List.mem_of_mem_filter he) h13 h268
    · intro h e he h13 h268
      exact h e (List.mem_filter.mpr ⟨he, by simp [h13, h268]⟩) h13 h268

/-- C5, witness at concrete series exercising the boundaries: price exactly
299.0 on day 13 passes, volume exactly 10.0 on day 268 passes, and the
out-of-range days 12 and 269 (which would otherwise fail) are ignored. -/
theorem c5_validity_boundary_witness :
    priceOk [(12, 1000), (13, 299), (269, 1000)] = true ∧
    volumeOk [(12, 0), (268, 10), (269, 0)] = true ∧
    priceOk [(12, 1000), (13, 299), (269, 1000)] =
      priceOk ([(12, 1000), (13, 299), (269, 1000)].filter
        (fun e => decide (13 ≤ e.1) && decide (e.1 ≤ 268))) := by
  have h := c5_validity_boundary [(12, 1000), (13, 299), (269, 1000)]
    [(12, 0), (268, 10), (269, 0)] (by decide) (by decide)
  exact ⟨h.1 (by decide), h.2.1 (by decide), h.2.2.1⟩

/-- C6: for every engine state the query returns a table named
`asset-class_counts` with columns `(asset-class : STRING, count : INT)` whose
rows are exactly the bond row (when the bond total is nonzero) followed by
the stock row (when the stock total is nonzero), and nothing else. -/
theorem c6_result_table_shape :
    ∀ st : EngineState,
      (exe st).name = "asset-class_counts" ∧
      (exe st).columnNames = ["asset-class", "count"] ∧
      (exe st).columnTypes = [FieldType.tString, FieldType.tInt] ∧
      (exe st).records =
        (if (classTotals st).2.1 ≠ 0
         then [[Field.stringF "bond", Field.intF (classTotals st).2.1]] else []) ++
        (if (classTotals st).1 ≠ 0
         then [[Field.stringF "stock", Field.intF (classTotals st).1]] else []) :=
  fun _ => ⟨rfl, rfl, rfl, rfl⟩

/-- C7: an instrument whose class is neither `"stock"` nor `"bond"`, or that
has no trade record, leaves the accumulator (both class totals and the
carried flag) unchanged, regardless of its price or volume series. -/
theorem c7_classification_filter :
    ∀ (st : EngineState) (acc : Int × Int × Bool) (name cls : String),
      ((cls ≠ "stock" ∧ cls ≠ "bond") ∨ mapFind name st.name_to_trades = none) →
      exeStep st acc (name, cls) = acc := by
  intro st acc name cls h
  rcases h with hcls | htr
  · simp [exeStep, hcls]
  · by_cases hcls2 : cls ≠ "stock" ∧ cls ≠ "bond"
    · simp [exeStep, hcls2]
    · simp [exeStep, hcls2, htr]

/-- C7, witness: a `"fund"`-classified instrument with trades and series, and
a stock with no trades, both leave the accumulator unchanged. -/
theorem c7_classification_filter_witness :
    exeStep ⟨[], [], [("F", "fund")], [("F", [(13, 1000)])], [], [("F", [(1, 13, 5)])]⟩
      (3, 4, true) ("F", "fund") = (3, 4, true) ∧
    exeStep ⟨[], [], [("S", "stock")], [("S", [(20, 100)])], [], []⟩
      (3, 4, true) ("S", "stock") = (3, 4, true) := by
  constructor
  · exact c7_classification_filter _ (3, 4, true) "F" "fund" (Or.inl (by decide))
  · exact c7_classification_filter _ (3, 4, true) "S" "stock" (Or.inr (by decide))

lemma loadTables_no_unknown (n : Nat) :
    ∀ (lines : List (List String)), lines.length ≤ n →
      ∀ (st : EngineState) (flag : Option TableName), goodHeaders lines = true →
        resultError (loadTablesFromCSV lines st flag) ≠ some ParseError.unknownColumnType := by
  induction n with
  | zero =>
    intro lines hlen st flag _
    obtain rfl : lines = [] := List.length_eq_zero.mp (Nat.le_zero.mp hlen)
    simp [loadTablesFromCSV, resultError]
  | succ n ih =>
    intro lines hlen st flag hg
    cases lines with
    | nil => simp [loadTablesFromCSV, resultError]
    | cons l rest =>
      cases l with
      | nil => simp [loadTablesFromCSV, resultError]
      | cons l0 ltail =>
        by_cases hmark : l0 = "<TABLE>"
        · subst hmark
          cases rest with
          | nil => simp [loadTablesFromCSV, resultError]
          | cons names rest1 =>
            cases rest1 with
            | nil => simp [loadTablesFromCSV, resultError]
            | cons types rest2 =>
              have hall : types.all goodTypeToken = true := by
                rw [goodHeaders, Bool.and_eq_true] at hg
                simpa using hg.1
              have hg2 : goodHeaders rest2 = true :=
                goodHeaders_tail (goodHeaders_tail (goodHeaders_tail hg))
              obtain ⟨ts, hts⟩ := Option.isSome_iff_exists.mp (parseTypes_isSome_of_all hall)
              by_cases hlen1 : names.length < 1
              · simp [loadTablesFromCSV, resultError, hlen1]
              · by_cases hlen2 : names.length ≠ types.length
                · simp [loadTablesFromCSV, resultError, hlen1, hlen2]
                · cases ltail with
                  | nil => simp [loadTablesFromCSV, resultError, hlen1, hlen2, hts]
                  | cons tname lrest =>
                    obtain ⟨tabs, hdrs, cls, pr, vol, trs⟩ := st
                    have hlen' : rest2.length ≤ n := by
                      simp only [List.length_cons] at hlen
                      omega
                    rw [loadTablesFromCSV.eq_def]
                    simp only [hlen1, hlen2, hts, if_false, ite_false]
                    simp [hlen1, hlen2, hts]
                    exact ih rest2 hlen' _ _ hg2
        · cases hlast : st.tables.getLast? with
          | none => rw [loadTablesFromCSV.eq_def]; simp [resultError, hmark, hlast]
          | some ct =>
            by_cases harity : (l0 :: ltail).length ≠ ct.columnNames.length
            · have ha : ¬(ltail.length + 1 = ct.columnNames.length) := by simpa using harity
              rw [loadTablesFromCSV.eq_def]
              simp [resultError, hmark, hlast, ha]
            · have ha : ltail.length + 1 = ct.columnNames.length := by
                have := not_not.mp harity
                simpa using this
              cases hrec : parseRecord ct.columnTypes (l0 :: ltail) with
              | error e =>
                rcases parseRecord_error hrec with rfl | rfl <;>
                  (rw [loadTablesFromCSV.eq_def]; simp [resultError, hmark, hlast, ha, hrec])
              | ok r =>
                cases happ : applyIndex flag r st with
                | error e =>
                  obtain rfl := applyIndex_error happ
                  rw [loadTablesFromCSV.eq_def]
                  simp [resultError, hmark, hlast, ha, hrec, happ]
                | ok st2 =>
                  obtain ⟨tabs2, hdrs2, cls2, pr2, vol2, trs2⟩ := st2
                  have hlen' : rest.length ≤ n := by
                    simp only [List.length_cons] at hlen
                    omega
                  have hg2 : goodHeaders rest = true := goodHeaders_tail hg
                  rw [loadTablesFromCSV.eq_def]
                  simp [hmark, hlast, ha, hrec, happ]
                  exact ih rest hlen' _ _ hg2

/-- C3, counterexample: serializing the engine's own result-shaped table (no
FLOAT values, so the claim's float proviso holds vacuously) through
`DenseTable.print` and re-parsing that text through the codec does NOT yield
the table back: parsing fails fatally with `UnknownColumnType`, because the
output header order (types, then names) is the reverse of the input header
order the parser expects. -/
theorem c3_counterexample :
    loadTablesFromCSV (csvSplit (DenseTable.print c3table)) initState none =
      ParseResult.err ParseError.unknownColumnType initState := by decide

/-- C3, amended: re-parsing a serialized table through the codec fails
fatally with `UnknownColumnType` (with nothing stored), for every table with
at least one column whose column names include a token other than
`INT`/`FLOAT`/`STRING` — the parser reads the first header line of the
output (the types) as the column names and the second (the names) as the
column types. -/
theorem c3_print_reparse_fails :
    ∀ (t : DenseTable) (st : EngineState) (flag : Option TableName),
      t.columnNames.length = t.columnTypes.length →
      1 ≤ t.columnNames.length →
      (∃ nm ∈ t.columnNames, nm ≠ "INT" ∧ nm ≠ "FLOAT" ∧ nm ≠ "STRING") →
      loadTablesFromCSV (printLines t) st flag =
        ParseResult.err ParseError.unknownColumnType st := by
  intro t st flag hlen h1 hex
  obtain ⟨nm, hmem, hn1, hn2, hn3⟩ := hex
  have hbad : goodTypeToken nm = false := by
    rw [goodTypeToken]
    simp [hn1, hn2, hn3]
  have hnone := parseTypes_none_of_bad hmem hbad
  have ht0 : ¬(t.columnTypes = []) := by
    intro hnil
    rw [hnil] at hlen
    simp only [List.length_nil] at hlen
    omega
  have hn0 : ¬(t.columnNames = []) := by
    intro hnil
    rw [hnil] at h1
    simp only [List.length_nil] at h1
    omega
  have ht1 : t.columnTypes.length = t.columnNames.length := hlen.symm
  rw [printLines, loadTablesFromCSV.eq_def]
  simp [hnone, ht0, hn0, ht1]

/-- C3, witness for the amended theorem at the concrete result-shaped
table. -/
theorem c3_print_reparse_fails_witness :
    loadTablesFromCSV (printLines c3table) initState none =
      ParseResult.err ParseError.unknownColumnType initState :=
  c3_print_reparse_fails c3table initState none (by decide) (by decide)
    ⟨"asset-class", by decide, by decide, by decide, by decide⟩

/-- C8: (1) when the parser reaches a table block whose column-type header
line contains a token other than the exact strings `INT`/`FLOAT`/`STRING`
(and the earlier header checks pass), it fails fatally with
`UnknownColumnType` and the state is left as it was (no result); (2) on any
input in which every line sitting two positions after a `<TABLE>`-marker
line contains only those three tokens, the `UnknownColumnType` failure is
unreachable. -/
theorem c8_unknown_column_type :
    (∀ (st : EngineState) (flag : Option TableName) (ltail : List String)
       (columnNames columnTypeNames : List String) (rest : List (List String)),
       1 ≤ columnNames.length →
       columnNames.length = columnTypeNames.length →
       (∃ tok ∈ columnTypeNames, tok ≠ "INT" ∧ tok ≠ "FLOAT" ∧ tok ≠ "STRING") →
       loadTablesFromCSV (("<TABLE>" :: ltail) :: columnNames :: columnTypeNames :: rest) st flag
         = ParseResult.err ParseError.unknownColumnType st) ∧
    (∀ (lines : List (List String)) (st : EngineState) (flag : Option TableName),
       goodHeaders lines = true →
       resultError (loadTablesFromCSV lines st flag) ≠ some ParseError.unknownColumnType) := by
  constructor
  · intro st flag ltail columnNames columnTypeNames rest h1 h2 hex
    obtain ⟨tok, hmem, ht1, ht2, ht3⟩ := hex
    have hbad : goodTypeToken tok = false := by
      rw [goodTypeToken]
      simp [ht1, ht2, ht3]
    have hnone := parseTypes_none_of_bad hmem hbad
    have hlen1 : ¬(columnNames.length < 1) := by omega
    have hlen2 : ¬(columnNames.length ≠ columnTypeNames.length) := fun hn => hn h2
    simp [loadTablesFromCSV, hlen1, hlen2, hnone]
  · intro lines st flag hg
    exact loadTables_no_unknown lines.length lines (le_refl _) st flag hg

/-- C8, witness: a bad type token fails with `UnknownColumnType`; a
well-typed header never produces that error. -/
theorem c8_unknown_column_type_witness :
    loadTablesFromCSV [["<TABLE>", "t"], ["a"], ["BOGUS"]] initState none
      = ParseResult.err ParseError.unknownColumnType initState ∧
    resultError (loadTablesFromCSV [["<TABLE>", "t"], ["a"], ["INT"], ["7"]] initState none)
      ≠ some ParseError.unknownColumnType := by
  constructor
  · exact c8_unknown_column_type.1 initState none ["t"] ["a"] ["BOGUS"] [] (by decide) (by decide)
      ⟨"BOGUS", by decide, by decide, by decide, by decide⟩
  · exact c8_unknown_column_type.2 [["<TABLE>", "t"], ["a"], ["INT"], ["7"]] initState none
      (by decide)

/-- C9: a data row whose field count differs from the current table's column
count fails fatally with `ArityMismatch`, and the engine state carried at the
failure is exactly the state from before the row — neither the row nor any
indexed-store entry for it was stored. -/
theorem c9_arity_mismatch_fatal :
    ∀ (st : EngineState) (flag : Option TableName) (l0 : String) (ltail : List String)
      (rest : List (List String)) (ct : DenseTable),
      l0 ≠ "<TABLE>" →
      st.tables.getLast? = some ct →
      (l0 :: ltail).length ≠ ct.columnNames.length →
      loadTablesFromCSV ((l0 :: ltail) :: rest) st flag =
        ParseResult.err ParseError.arityMismatch st := by
  intro st flag l0 ltail rest ct hmark hlast hlen
  have ha : ¬(ltail.length + 1 = ct.columnNames.length) := by simpa using hlen
  rw [loadTablesFromCSV.eq_def]
  simp [hmark, hlast, ha]

/-- C9, witness: a one-field row against a two-column table. -/
theorem c9_arity_mismatch_fatal_witness :
    loadTablesFromCSV [["x"]]
      ⟨[⟨"t", ["a", "b"], [FieldType.tString, FieldType.tString], []⟩], [], [], [], [], []⟩
      none =
    ParseResult.err ParseError.arityMismatch
      ⟨[⟨"t", ["a", "b"], [FieldType.tString, FieldType.tString], []⟩], [], [], [], [], []⟩ :=
  c9_arity_mismatch_fatal
    ⟨[⟨"t", ["a", "b"], [FieldType.tString, FieldType.tString], []⟩], [], [], [], [], []⟩
    none "x" [] [] ⟨"t", ["a", "b"], [FieldType.tString, FieldType.tString], []⟩
    (by decide) (by decide) (by decide)

/-- C10: running the query does not modify the engine's loaded state — in
the state-threading model of `exe`, where every member-container access
passes the container through, the state comes out exactly as it went in (the
source touches its members only through `std::map::find` and iteration) —
and therefore a second execution on the same loaded engine returns the same
result table (the driver runs `exe` five times and keeps the last result). -/
theorem c10_exe_frame :
    ∀ st : EngineState,
      (exeS st).1 = st ∧ (exeS st).2 = exe st ∧ (exeS ((exeS st).1)).2 = (exeS st).2 := by
  intro st
  simp [exeS_eq]

end SparseQuery
